import Mathlib

/-!
Verification development for the inventory valuation and invoice ledger
engine of the Buisness-inventory repository.

The JavaScript source is shallowly embedded:

* JS numbers flowing through the engine are modelled by `NumJS := Option ℚ`,
  where `none` stands for the non-numeric results NaN (and for `undefined`,
  which behaves the same way in every operation the engine applies to it:
  arithmetic propagates it, comparisons against it are false, and it is
  falsy).  All numeric values actually reachable in the engine are finite,
  so rational arithmetic is the faithful idealisation; `Number.toFixed(2)`
  followed by `parseFloat` is modelled by rounding to two decimals.
* The object store (one JSON file per product) is an association list from
  SKU to product; the movement ledger is a list of movement records.
  The free-text audit note and the ISO timestamps recorded in movement
  entries are presentation data and are not modelled.
* The tenant gate (`validateCompanyAccess` / the `!companyId` guards) is
  modelled as already passed: every claim concerns post-gate behaviour.
* `throw new AppError(code, msg)` is modelled by returning `Except.error`
  carrying the numeric status code and the static part of the message;
  store state is returned alongside so that "no write happened" is
  expressible.
-/

/-- A JS number as used by the engine: `some q` is the finite number `q`,
`none` is NaN (or `undefined`, which the engine treats identically). -/
abbrev NumJS : Type := Option ℚ

/-- Embed a rational as a JS number. -/
def numJ (q : ℚ) : NumJS := some q

/-- JS addition: NaN propagates. -/
def addN : NumJS → NumJS → NumJS
  | some a, some b => some (a + b)
  | _, _ => none

/-- JS subtraction: NaN propagates. -/
def subN : NumJS → NumJS → NumJS
  | some a, some b => some (a - b)
  | _, _ => none

/-- JS multiplication: NaN propagates. -/
def mulN : NumJS → NumJS → NumJS
  | some a, some b => some (a * b)
  | _, _ => none

/-- JS division: NaN propagates.  Division by zero yields a non-finite
result in JS (Infinity or NaN); it is mapped to `none` here.  On every
code path the engine divides only by a quantity that was validated to be
positive, so the zero-denominator branch is never reached. -/
def divN : NumJS → NumJS → NumJS
  | some a, some b => if b = 0 then none else some (a / b)
  | _, _ => none

/-- JS strict-less-than: any comparison with NaN is false. -/
def ltN : NumJS → NumJS → Bool
  | some a, some b => decide (a < b)
  | _, _ => false

/-- JS less-or-equal: any comparison with NaN is false. -/
def leN : NumJS → NumJS → Bool
  | some a, some b => decide (a ≤ b)
  | _, _ => false

/-- JS greater-than `a > b`, i.e. `b < a`; false when either side is NaN. -/
def gtN (a b : NumJS) : Bool := ltN b a

/-- JS truthiness of a number: NaN and 0 are falsy. -/
def truthyN : NumJS → Bool
  | none => false
  | some a => decide (a ≠ 0)

/-- The JS idiom `x || d` on numbers: `d` when `x` is falsy (0 or NaN),
otherwise `x` itself. -/
def orElseN (x d : NumJS) : NumJS := if truthyN x then x else d

/-- Round a rational to two decimal places (the idealisation of
`parseFloat(x.toFixed(2))` / `Number(x.toFixed(2))`). -/
def round2 (q : ℚ) : ℚ := (round (q * 100) : ℤ) / 100

/-- Two-decimal rounding lifted to JS numbers; `toFixed` on NaN gives the
string "NaN", which parses back to NaN. -/
def round2N : NumJS → NumJS
  | some a => some (round2 a)
  | none => none

/-- A rational that is exactly representable with two decimal places
(a monetary amount as persisted by the engine). -/
def isMoney (q : ℚ) : Prop := ∃ k : ℤ, q * 100 = k

/-- A rational that is an integer (a unit count). -/
def isInt (q : ℚ) : Prop := ∃ k : ℤ, q = k

/- ---------- substring search on lowercased notes ---------- -/

/-- Decide whether the list `sub` occurs as a contiguous block of `hay`. -/
def hasSub (sub : List Char) : List Char → Bool
  | [] => sub.isEmpty
  | c :: t => (((c :: t).take sub.length) == sub) || hasSub sub t

/-- ASCII lower-casing of one character, as `toLowerCase` acts on the
ASCII note strings the engine compares (the keys searched for are plain
ASCII words). -/
def lowerChar (c : Char) : Char :=
  if 'A' ≤ c && c ≤ 'Z' then Char.ofNat (c.toNat + 32) else c

/-- The JS test `note.toLowerCase().includes(key)` (with `key` already
lower-case, as everywhere in the source). -/
def noteHas (note key : String) : Bool := hasSub key.data (note.data.map lowerChar)

/- ---------- errors ---------- -/

/-- The single error class of the source (`AppError(statusCode, message)`).
For messages that interpolate runtime values the static head of the
message is kept. -/
structure Err where
  statusCode : ℕ
  message : String
deriving DecidableEq

/- ---------- products and the product store ---------- -/

/-- A product record as persisted per SKU.  Fields the modelled operations
never read or write (category, reorderLevel, createdAt, updatedAt,
companyId stamp) are omitted. -/
structure Product where
  sku : String
  name : String
  costPrice : NumJS
  sellingPrice : NumJS
  taxPercent : NumJS
  stockOnHand : NumJS
  averageCost : NumJS
  inventoryValue : NumJS
deriving DecidableEq

/-- The per-tenant product store: one record per SKU key. -/
abbrev Store : Type := List (String × Product)

/-- Read `companies/../products/sku.json`: the first record under the key. -/
def findP : Store → String → Option Product
  | [], _ => none
  | (k, p) :: t, sku => if k = sku then some p else findP t sku

/-- Overwrite the record stored under a key (a no-op when absent; the
engine only writes a SKU it has just read). -/
def setP : Store → String → Product → Store
  | [], _, _ => []
  | (k, p) :: t, sku, q => if k = sku then (k, q) :: setP t sku q else (k, p) :: setP t sku q

/-- A movement-ledger entry (`recordMovement`), minus the formatted audit
note and timestamp, which are presentation strings. -/
structure Movement where
  sku : String
  productName : String
  mtype : String
  quantity : NumJS
  costPerUnit : NumJS
  stockOnHandAfter : NumJS
  inventoryValueAfter : NumJS
  averageCostAfter : NumJS
deriving DecidableEq

/-- Build the ledger entry pushed by `recordMovement`: the snapshot is of
the product *after* the change; a `null` costPerUnit falls back to the
(updated) averageCost. -/
def mkMove (mtype : String) (p : Product) (quantity : NumJS) (costPerUnit : Option NumJS) : Movement :=
  { sku := p.sku
    productName := p.name
    mtype := mtype
    quantity := quantity
    costPerUnit := match costPerUnit with
      | some c => c
      | none => p.averageCost
    stockOnHandAfter := p.stockOnHand
    inventoryValueAfter := p.inventoryValue
    averageCostAfter := p.averageCost }

/-- Engine state: the product files plus the (append-only) movement ledger. -/
structure St where
  products : Store
  movements : List Movement
deriving DecidableEq

/- ---------- stock operations ---------- -/

/-- STOCK IN (inventoryController.stockIn).  `quantity` and `costPerUnit`
are the `Number(..)`-coerced inputs (a missing input coerces to NaN).
The source guard reads `costPerUnit == null || costPerUnit < 0`; after the
`Number(..)` coercion the value is never `null`/`undefined`, so only the
`< 0` disjunct can fire (and it is false on NaN). -/
def stockIn (σ : St) (sku : String) (quantity costPerUnit : NumJS) (note : String) :
    (Except Err Product) × St :=
  if !truthyN quantity || leN quantity (numJ 0) then
    (.error ⟨400, "Quantity must be greater than zero"⟩, σ)
  else if ltN costPerUnit (numJ 0) && !(noteHas note "rollback") then
    (.error ⟨400, "Cost per unit is required and cannot be negative"⟩, σ)
  else
    match findP σ.products sku with
    | none => (.error ⟨404, "Product not found"⟩, σ)
    | some product =>
      let currentQty := orElseN product.stockOnHand (numJ 0)
      let currentAvgCost := orElseN product.averageCost (numJ 0)
      let newTotalQty := addN currentQty quantity
      let newAverageCost :=
        if noteHas note "rollback" || noteHas note "cancel" then currentAvgCost
        else round2N (divN (addN (mulN currentQty currentAvgCost) (mulN quantity costPerUnit)) newTotalQty)
      let newInventoryValue := round2N (mulN newTotalQty newAverageCost)
      let updated : Product :=
        { product with
            stockOnHand := newTotalQty
            averageCost := newAverageCost
            inventoryValue := newInventoryValue }
      (.ok updated,
        ⟨setP σ.products sku updated,
          σ.movements ++ [mkMove "Stock In" updated quantity (some (orElseN costPerUnit currentAvgCost))]⟩)

/-- STOCK OUT (inventoryController.stockOut).  The insufficient-stock
message interpolates the available quantity; its static head is kept. -/
def stockOut (σ : St) (sku : String) (quantity : NumJS) : (Except Err Product) × St :=
  if !truthyN quantity || leN quantity (numJ 0) then
    (.error ⟨400, "Quantity must be greater than zero"⟩, σ)
  else
    match findP σ.products sku with
    | none => (.error ⟨404, "Product not found"⟩, σ)
    | some product =>
      if ltN product.stockOnHand quantity then
        (.error ⟨400, "Stock out failed: Only stockOnHand units available"⟩, σ)
      else
        let newQty := subN product.stockOnHand quantity
        let newInventoryValue := round2N (mulN newQty (orElseN product.averageCost (numJ 0)))
        let updated : Product :=
          { product with stockOnHand := newQty, inventoryValue := newInventoryValue }
        (.ok updated,
          ⟨setP σ.products sku updated,
            σ.movements ++ [mkMove "Stock Out" updated quantity none]⟩)

/-- STOCK ADJUSTMENT (inventoryController.stockAdjustment).  The source
guard reads `quantity == null || quantity === 0`; after `Number(..)` the
value is never `null`, and `NaN === 0` is false, so only an exact zero is
rejected. -/
def stockAdjustment (σ : St) (sku : String) (quantity : NumJS) : (Except Err Product) × St :=
  if quantity = numJ 0 then
    (.error ⟨400, "Adjustment quantity must be non-zero"⟩, σ)
  else
    match findP σ.products sku with
    | none => (.error ⟨404, "Product not found"⟩, σ)
    | some product =>
      let newQty := addN product.stockOnHand quantity
      if ltN newQty (numJ 0) then
        (.error ⟨400, "Adjustment would make stock negative"⟩, σ)
      else
        let newInventoryValue := round2N (mulN newQty (orElseN product.averageCost (numJ 0)))
        let updated : Product :=
          { product with stockOnHand := newQty, inventoryValue := newInventoryValue }
        (.ok updated,
          ⟨setP σ.products sku updated,
            σ.movements ++ [mkMove "Stock Adjustment" updated quantity none]⟩)

/-- The at-rest consistency of a persisted product (spec §3): the stored
inventoryValue equals the two-decimal rounding of stockOnHand × averageCost. -/
def valConsistent (p : Product) : Prop :=
  p.inventoryValue = round2N (mulN p.stockOnHand p.averageCost)

instance (p : Product) : Decidable (valConsistent p) := by
  unfold valConsistent
  infer_instance

/- ---------- invoices ---------- -/

/-- An invoice line item as snapshotted by createInvoice (aiController):
the product's current sellingPrice, costPrice and taxPercent are frozen
into the line; the three derived amounts are persisted rounded. -/
structure LineItem where
  sku : String
  name : String
  quantity : NumJS
  sellingPrice : NumJS
  costPrice : NumJS
  taxPercent : NumJS
  taxAmount : NumJS
  lineSubtotal : NumJS
  lineTotal : NumJS
deriving DecidableEq

/-- An invoice document as persisted under
`companies/../invoices/invoiceNumber.json`.  `cancelledAt` is absent
until cancellation (`none`). -/
structure Invoice where
  companyId : String
  invoiceNumber : String
  customerName : String
  gst : String
  date : String
  dueDate : Option String
  paidOn : Option String
  items : List LineItem
  subtotal : NumJS
  totalTax : NumJS
  totalAmount : NumJS
  outstandingAmount : NumJS
  grossProfit : NumJS
  status : String
  cancelledAt : Option String
deriving DecidableEq

/-- A requested invoice line (`items[]` of the request payload). -/
structure ReqItem where
  sku : String
  quantity : NumJS
deriving DecidableEq

/-- The createInvoice request payload. -/
structure InvoiceReq where
  customerName : String
  gst : String
  items : List ReqItem
  dueDate : Option String
  status : String
deriving DecidableEq

/-- Phase 1 of createInvoice: the validation loop.  Each requested line is
checked against the *current* store (the loop never writes), and the
snapshot line is built together with the running sums invoiceSubtotal,
totalTaxAmount and totalCostOfGoods.  The source accumulates the sums
left-to-right with `+=`; they are accumulated here on the way out of the
recursion, which yields the same totals since `addN` is commutative and
associative (also through NaN, which absorbs). -/
def buildLines (s : Store) : List ReqItem → Except Err (NumJS × NumJS × NumJS × List LineItem)
  | [] => .ok (numJ 0, numJ 0, numJ 0, [])
  | item :: rest =>
    match findP s item.sku with
    | none => .error ⟨404, "Product not found"⟩
    | some product =>
      if ltN product.stockOnHand item.quantity then
        .error ⟨400, "Insufficient stock for product"⟩
      else
        let sellingPrice := product.sellingPrice
        let costPrice := product.costPrice
        let taxPercent := orElseN product.taxPercent (numJ 0)
        let lineSubtotal := mulN item.quantity sellingPrice
        let lineTax := mulN lineSubtotal (divN taxPercent (numJ 100))
        let lineTotalWithTax := addN lineSubtotal lineTax
        match buildLines s rest with
        | .error e => .error e
        | .ok (sub, tax, cost, lines) =>
          .ok (addN lineSubtotal sub, addN lineTax tax,
            addN (mulN item.quantity costPrice) cost,
            { sku := item.sku, name := product.name, quantity := item.quantity,
              sellingPrice := sellingPrice, costPrice := costPrice,
              taxPercent := taxPercent, taxAmount := round2N lineTax,
              lineSubtotal := round2N lineSubtotal,
              lineTotal := round2N lineTotalWithTax } :: lines)

/-- Phase 2 of createInvoice: the stock-out loop over the validated lines
(the note passed by the source is the invoice-number tag, which only feeds
the unmodelled audit text).  A failure mid-loop leaves the deductions
already made in place — the source has no transaction — so the state
reached so far is returned with the error. -/
def deductAll (σ : St) : List LineItem → (Except Err Unit) × St
  | [] => (.ok (), σ)
  | item :: rest =>
    match stockOut σ item.sku item.quantity with
    | (.error e, σ2) => (.error e, σ2)
    | (.ok _, σ2) => deductAll σ2 rest

/-- createInvoice (aiController).  `invId` and `now` stand for the
generated invoice number and ISO timestamp. -/
def createInvoice (σ : St) (companyId : String) (data : InvoiceReq) (invId now : String) :
    (Except Err Invoice) × St :=
  match buildLines σ.products data.items with
  | .error e => (.error e, σ)
  | .ok (invoiceSubtotal, totalTaxAmount, totalCostOfGoods, finalItems) =>
    let grossProfit := subN invoiceSubtotal totalCostOfGoods
    let grandTotal := addN invoiceSubtotal totalTaxAmount
    match deductAll σ finalItems with
    | (.error e, σ2) => (.error e, σ2)
    | (.ok _, σ2) =>
      (.ok {
        companyId := companyId
        invoiceNumber := invId
        customerName := data.customerName
        gst := data.gst
        date := now
        dueDate := if data.status = "Paid" then none else data.dueDate
        paidOn := if data.status = "Paid" then some now else none
        items := finalItems
        subtotal := round2N invoiceSubtotal
        totalTax := round2N totalTaxAmount
        totalAmount := round2N grandTotal
        outstandingAmount := if data.status = "Paid" then numJ 0 else round2N grandTotal
        grossProfit := round2N grossProfit
        status := if data.status = "Paid" then "Paid" else "Unpaid"
        cancelledAt := none }, σ2)

/-- The per-line reversal loop of cancelInvoice: a stock-in tagged with
the note "Rollback: Cancelled invoiceNumber" at the line's snapshotted
costPrice.  The source fires these through Promise.all, i.e. without
mutual isolation; they are modelled sequentially, which coincides with
every interleaving when the line SKUs are pairwise distinct (the
hypothesis under which the cancellation claim is proved). -/
def rollbackAll (σ : St) (invoiceNumber : String) : List LineItem → Except Err St
  | [] => .ok σ
  | item :: rest =>
    match stockIn σ item.sku item.quantity item.costPrice
        ("Rollback: Cancelled " ++ invoiceNumber) with
    | (.error e, _) => .error e
    | (.ok _, σ2) => rollbackAll σ2 invoiceNumber rest

/-- cancelInvoice (aiController).  `stored` is the result of the
exists/download of the invoice file; an error return means the invoice
file is not rewritten. -/
def cancelInvoice (stored : Option Invoice) (σ : St) (now : String) :
    Except Err (Invoice × St) :=
  match stored with
  | none => .error ⟨404, "Invoice not found"⟩
  | some invoice =>
    if invoice.status = "Cancelled" then .error ⟨400, "Invoice is already cancelled."⟩
    else
      match rollbackAll σ invoice.invoiceNumber invoice.items with
      | .error e => .error e
      | .ok σ2 =>
        .ok ({ invoice with
                status := "Cancelled", subtotal := numJ 0, totalTax := numJ 0,
                totalAmount := numJ 0, outstandingAmount := numJ 0,
                grossProfit := numJ 0, cancelledAt := some now }, σ2)

/-- recordPayment (aiController).  `stored` is the result of the
exists/download of the invoice file; `amountReceived` is the
`Number(..)`-coerced payment amount. -/
def recordPayment (stored : Option Invoice) (amountReceived : NumJS) (now : String) :
    Except Err Invoice :=
  match stored with
  | none => .error ⟨404, "Invoice not found"⟩
  | some invoice =>
    if invoice.status = "Cancelled" then
      .error ⟨400, "Cannot record payment for a cancelled invoice."⟩
    else if leN amountReceived (numJ 0) then .error ⟨400, "Invalid payment amount"⟩
    else if gtN amountReceived invoice.outstandingAmount then
      .error ⟨400, "Overpayment not allowed"⟩
    else
      let newOutstanding := round2N (subN invoice.outstandingAmount amountReceived)
      if newOutstanding = numJ 0 then
        .ok { invoice with outstandingAmount := newOutstanding,
                           status := "Paid", paidOn := some now }
      else
        .ok { invoice with outstandingAmount := newOutstanding }

/- ---------- concrete fixtures used by witnesses and counterexamples ---------- -/

/-- A product on hand: 10 units at weighted-average cost 10. -/
def pW : Product :=
  { sku := "W", name := "Widget", costPrice := some 10, sellingPrice := some 25,
    taxPercent := some 5, stockOnHand := some 10, averageCost := some 10,
    inventoryValue := some 100 }

/-- A one-product engine state built from `pW`. -/
def σW : St := ⟨[("W", pW)], []⟩

/-- What a missing (NaN) costPerUnit stock-in of 5 units actually turns
`pW` into: the averageCost and inventoryValue become NaN. -/
def pWnan : Product :=
  { pW with
    stockOnHand := some 15, averageCost := none, inventoryValue := none }

/-- The product of the spec scenario: SKU1 with 10 units at averageCost 10. -/
def pC9 : Product :=
  { sku := "SKU1", name := "SKU1", costPrice := some 10, sellingPrice := some 25,
    taxPercent := some 0, stockOnHand := some 10, averageCost := some 10,
    inventoryValue := some 100 }

/-- The engine state of the spec scenario. -/
def σC9 : St := ⟨[("SKU1", pC9)], []⟩

/-- The product the code persists after stockIn(qty 5, cost 20) on `pC9`:
15 units, averageCost 13.33, inventoryValue round2(15 × 13.33) = 199.95. -/
def pC9after : Product :=
  { pC9 with
    stockOnHand := some 15, averageCost := some (1333/100),
    inventoryValue := some (19995/100) }

/-- A freshly created product (stock 0, averageCost = costPrice 5). -/
def pC1 : Product :=
  { sku := "A", name := "A", costPrice := some 5, sellingPrice := some 9,
    taxPercent := some 0, stockOnHand := some 0, averageCost := some 5,
    inventoryValue := some 0 }

/-- Engine state holding only `pC1`. -/
def σC1 : St := ⟨[("A", pC1)], []⟩

/-- `pC1` after a successful stock-in of 1 unit with a missing costPerUnit:
averageCost and inventoryValue are NaN (still mutually consistent). -/
def pC1mid : Product :=
  { pC1 with
    stockOnHand := some 1, averageCost := none, inventoryValue := none }

/-- The engine state after that stock-in. -/
def σC1mid : St := (stockIn σC1 "A" (some 1) none "").2

/-- `pC1mid` after a further successful adjustment of +1: the `avg || 0`
fallback stores inventoryValue 0 while averageCost stays NaN, so the
stored inventoryValue no longer matches round2(stockOnHand × averageCost). -/
def pC1bug : Product :=
  { pC1 with
    stockOnHand := some 2, averageCost := none, inventoryValue := some 0 }

/-- An unpaid invoice of 1000 with nothing received yet. -/
def invW : Invoice :=
  { companyId := "c1", invoiceNumber := "INV-1", customerName := "Ada", gst := "G",
    date := "2026-01-01", dueDate := some "2026-02-01", paidOn := none, items := [],
    subtotal := some 1000, totalTax := some 0, totalAmount := some 1000,
    outstandingAmount := some 1000, grossProfit := some 200, status := "Unpaid",
    cancelledAt := none }

/-- `invW` after a payment of 600 is recorded. -/
def invW600 : Invoice := { invW with outstandingAmount := some 400 }


/-- Well-formedness of one invoice line against a product store: a
positive numeric quantity, and an existing product with numeric
stockOnHand and averageCost.  These are the hypotheses under which the
cancellation claim speaks. -/
def itemOk (s : Store) (it : LineItem) : Prop :=
  ∃ q stk a p, it.quantity = some q ∧ 0 < q ∧ findP s it.sku = some p ∧
    p.stockOnHand = some stk ∧ p.averageCost = some a

/-- The product persisted by a rollback-tagged stock-in of q units into
stk units at averageCost a. -/
def rollbackUpd (p : Product) (stk a q : ℚ) : Product :=
  { p with
    stockOnHand := some (stk + q), averageCost := some a,
    inventoryValue := some (round2 ((stk + q) * a)) }


/-- A snapshot line of 5 Widgets, as an invoice over `pW` would carry. -/
def lineW : LineItem :=
  { sku := "W", name := "Widget", quantity := some 5, sellingPrice := some 25,
    costPrice := some 10, taxPercent := some 5, taxAmount := some (625/100),
    lineSubtotal := some 125, lineTotal := some (13125/100) }

/-- An unpaid invoice holding the single line `lineW`. -/
def invC3 : Invoice := { invW with invoiceNumber := "INV-2", items := [lineW] }



/-- Sum of a list of JS numbers (used to state the invoice totals; `addN`
is commutative and associative, NaN absorbing, so the fold direction is
immaterial). -/
def sumN (l : List NumJS) : NumJS := l.foldr addN (numJ 0)

/-- Well-formedness of one requested invoice line against the store: a
positive integral quantity within stock, and an existing product with
2-decimal monetary sellingPrice and costPrice. -/
def reqOk (s : Store) (it : ReqItem) : Prop :=
  ∃ q p stk sp cp, it.quantity = some q ∧ 0 < q ∧ isInt q ∧
    findP s it.sku = some p ∧ p.stockOnHand = some stk ∧ q ≤ stk ∧
    p.sellingPrice = some sp ∧ isMoney sp ∧ p.costPrice = some cp ∧ isMoney cp

/-- A requested line that fails createInvoice validation: its product is
missing, or its quantity exceeds stockOnHand. -/
def reqBad (s : Store) (it : ReqItem) : Prop :=
  findP s it.sku = none ∨ ∃ p, findP s it.sku = some p ∧ ltN p.stockOnHand it.quantity = true

/-- The product persisted by a successful stock-out of q units from stk. -/
def outUpd (p : Product) (stk q : ℚ) : Product :=
  { p with
    stockOnHand := some (stk - q),
    inventoryValue := round2N (mulN (some (stk - q)) (orElseN p.averageCost (numJ 0))) }


/-- A request line for 2 Widgets. -/
def reqW : ReqItem := { sku := "W", quantity := some 2 }

/-- A one-line invoice request over `pW`, not immediately paid. -/
def dataW : InvoiceReq :=
  { customerName := "Ada", gst := "G", items := [reqW],
    dueDate := some "2026-02-01", status := "Unpaid" }


/- ---------- arithmetic helper lemmas ---------- -/

lemma numJ_def (q : ℚ) : numJ q = some q := rfl

lemma addN_some (a b : ℚ) : addN (some a) (some b) = some (a + b) := rfl

lemma addN_none_left (y : NumJS) : addN none y = none := rfl

lemma addN_none_right (x : NumJS) : addN x none = none := by cases x <;> rfl

lemma subN_some (a b : ℚ) : subN (some a) (some b) = some (a - b) := rfl

lemma subN_none_right (x : NumJS) : subN x none = none := by cases x <;> rfl

lemma mulN_some (a b : ℚ) : mulN (some a) (some b) = some (a * b) := rfl

lemma mulN_none_left (y : NumJS) : mulN none y = none := rfl

lemma mulN_none_right (x : NumJS) : mulN x none = none := by cases x <;> rfl

lemma divN_some (a b : ℚ) : divN (some a) (some b) = if b = 0 then none else some (a / b) := rfl

lemma divN_none_left (y : NumJS) : divN none y = none := rfl

lemma round2N_some (a : ℚ) : round2N (some a) = some (round2 a) := rfl

lemma round2N_none : round2N none = none := rfl

lemma ltN_some (a b : ℚ) : ltN (some a) (some b) = decide (a < b) := rfl

lemma ltN_none_left (y : NumJS) : ltN none y = false := rfl

lemma ltN_none_right (x : NumJS) : ltN x none = false := by cases x <;> rfl

lemma leN_some (a b : ℚ) : leN (some a) (some b) = decide (a ≤ b) := rfl

lemma orElseN_none (d : NumJS) : orElseN none d = d := rfl

lemma orElseN_some_zero (a : ℚ) : orElseN (some a) (numJ 0) = some a := by
  by_cases h : a = 0 <;> simp [orElseN, truthyN, numJ, h]

lemma truthyN_pos {q : ℚ} (h : 0 < q) : truthyN (some q) = true := by
  simp [truthyN, ne_of_gt h]

lemma leN_false_of_pos {q : ℚ} (h : 0 < q) : leN (some q) (numJ 0) = false := by
  simp [leN, numJ, not_le.mpr h]

lemma ltN_false_of_nonneg {q : ℚ} (h : 0 ≤ q) : ltN (some q) (numJ 0) = false := by
  simp [ltN, numJ, not_lt.mpr h]

lemma isMoney_eq_div {q : ℚ} (h : isMoney q) : ∃ k : ℤ, q = (k : ℚ) / 100 := by
  obtain ⟨k, hk⟩ := h
  exact ⟨k, by field_simp at hk ⊢; linarith⟩

lemma isMoney_round2 {q : ℚ} (h : isMoney q) : round2 q = q := by
  obtain ⟨k, hk⟩ := isMoney_eq_div h
  subst hk
  rw [round2]
  have h100 : ((100 : ℚ)) ≠ 0 := by norm_num
  rw [div_mul_cancel₀ _ h100, round_intCast]

lemma round2_money_add {a x : ℚ} (h : isMoney a) : round2 (a + x) = a + round2 x := by
  obtain ⟨k, hk⟩ := isMoney_eq_div h
  subst hk
  rw [round2, round2, add_mul]
  have h100 : ((100 : ℚ)) ≠ 0 := by norm_num
  rw [div_mul_cancel₀ _ h100, round_int_add]
  push_cast
  ring

lemma isMoney_add {a b : ℚ} (ha : isMoney a) (hb : isMoney b) : isMoney (a + b) := by
  obtain ⟨k, hk⟩ := ha
  obtain ⟨m, hm⟩ := hb
  exact ⟨k + m, by push_cast; rw [add_mul, hk, hm]⟩

lemma isMoney_sub {a b : ℚ} (ha : isMoney a) (hb : isMoney b) : isMoney (a - b) := by
  obtain ⟨k, hk⟩ := ha
  obtain ⟨m, hm⟩ := hb
  exact ⟨k - m, by push_cast; rw [sub_mul, hk, hm]⟩

lemma isMoney_zero : isMoney 0 := ⟨0, by norm_num⟩

lemma isMoney_int_mul {q c : ℚ} (hq : isInt q) (hc : isMoney c) : isMoney (q * c) := by
  obtain ⟨n, hn⟩ := hq
  obtain ⟨m, hm⟩ := hc
  exact ⟨n * m, by rw [mul_assoc, hm, hn]; push_cast; ring⟩

/- ---------- store access lemmas ---------- -/

lemma findP_setP_eq (s : Store) (sku : String) (q : Product) (hp : (findP s sku).isSome) :
    findP (setP s sku q) sku = some q := by
  induction s with
  | nil => simp [findP] at hp
  | cons kv t ih =>
    obtain ⟨k, p⟩ := kv
    by_cases hk : k = sku
    · simp [findP, setP, hk]
    · simp only [findP, setP, hk, if_false] at hp ⊢
      exact ih hp

lemma findP_setP_ne (s : Store) (sku k2 : String) (q : Product) (hne : k2 ≠ sku) :
    findP (setP s sku q) k2 = findP s k2 := by
  induction s with
  | nil => simp [setP]
  | cons kv t ih =>
    obtain ⟨k, p⟩ := kv
    by_cases hk : k = sku
    · subst hk
      simp [findP, setP, Ne.symm hne, ih]
    · simp [findP, setP, hk, ih]

lemma hasSub_append_self (sub rest : List Char) : hasSub sub (sub ++ rest) = true := by
  cases sub with
  | nil =>
    cases rest with
    | nil => rfl
    | cons c t => simp [hasSub]
  | cons c t =>
    show hasSub (c :: t) (c :: (t ++ rest)) = true
    have htake : (c :: (t ++ rest)).take (c :: t).length = c :: t := by
      rw [List.length_cons, List.take_succ_cons, List.take_left]
    simp [hasSub, htake]

/-- The note written by cancelInvoice always contains "rollback" after
lower-casing. -/
lemma rollbackNote_has (n : String) :
    noteHas ("Rollback: Cancelled " ++ n) "rollback" = true := by
  unfold noteHas
  rw [String.data_append, List.map_append]
  have h1 : ("Rollback: Cancelled ".data.map lowerChar) =
      "rollback".data ++ ": cancelled ".data := by decide
  rw [h1, List.append_assoc]
  exact hasSub_append_self _ _

/-- A stock-in whose note is rollback-tagged always succeeds on an
existing product with numeric fields: quantity is added, averageCost kept,
inventoryValue recomputed at the kept averageCost. -/
lemma stockIn_rollback_ok (σ : St) (sku : String) (product : Product)
    (q stk a : ℚ) (cost : NumJS) (note : String)
    (hfind : findP σ.products sku = some product)
    (hstk : product.stockOnHand = some stk)
    (havg : product.averageCost = some a)
    (hq : 0 < q)
    (hnote : noteHas note "rollback" = true) :
    stockIn σ sku (some q) cost note =
      (.ok (rollbackUpd product stk a q),
        ⟨setP σ.products sku (rollbackUpd product stk a q),
          σ.movements ++ [mkMove "Stock In" (rollbackUpd product stk a q) (some q)
            (some (orElseN cost (some a)))]⟩) := by
  have h1 : (!truthyN (some q) || leN (some q) (numJ 0)) = false := by
    simp [truthyN_pos hq, leN_false_of_pos hq]
  have h2 : (ltN cost (numJ 0) && !(noteHas note "rollback")) = false := by
    simp [hnote]
  simp only [stockIn, h1, h2, Bool.false_eq_true, if_false, hfind, hstk, havg,
    orElseN_some_zero, addN_some, hnote, Bool.not_true, Bool.and_false, Bool.true_or,
    if_true, mulN_some, round2N_some, rollbackUpd]

/-- The cancellation reversal loop over well-formed lines with pairwise
distinct SKUs: it succeeds, adds each line's quantity to its product
without touching averageCost, and leaves every other SKU unread. -/
lemma rollbackAll_ok (n : String) : ∀ (items : List LineItem) (σ : St),
    (∀ it ∈ items, itemOk σ.products it) →
    ((items.map (fun it => it.sku)).Nodup) →
    ∃ σ2, rollbackAll σ n items = .ok σ2 ∧
      (∀ it ∈ items, ∀ p stk a q, findP σ.products it.sku = some p →
        p.stockOnHand = some stk → p.averageCost = some a → it.quantity = some q →
        ∃ p2, findP σ2.products it.sku = some p2 ∧
          p2.stockOnHand = some (stk + q) ∧ p2.averageCost = some a) ∧
      (∀ k, k ∉ items.map (fun it => it.sku) → findP σ2.products k = findP σ.products k)
  | [], σ, _, _ => ⟨σ, rfl, by simp, fun k _ => rfl⟩
  | it :: rest, σ, hok, hnd => by
    obtain ⟨q, stk, a, p, hq, hqpos, hfind, hstk, havg⟩ := hok it (List.mem_cons_self it rest)
    simp only [List.map_cons, List.nodup_cons] at hnd
    obtain ⟨hnotin, hndrest⟩ := hnd
    obtain ⟨σ1, hσ1prod, hin⟩ :
        ∃ σ1 : St, σ1.products = setP σ.products it.sku (rollbackUpd p stk a q) ∧
          stockIn σ it.sku (some q) it.costPrice ("Rollback: Cancelled " ++ n) =
            (.ok (rollbackUpd p stk a q), σ1) :=
      ⟨_, rfl, stockIn_rollback_ok σ it.sku p q stk a it.costPrice _ hfind hstk havg hqpos
        (rollbackNote_has n)⟩
    have hstep : rollbackAll σ n (it :: rest) = rollbackAll σ1 n rest := by
      simp only [rollbackAll, hq, hin]
    have hok1 : ∀ it2 ∈ rest, itemOk σ1.products it2 := by
      intro it2 hit2
      obtain ⟨q2, stk2, a2, p2, hq2, hq2pos, hfind2, hstk2, havg2⟩ :=
        hok it2 (List.mem_cons_of_mem it hit2)
      have hne : it2.sku ≠ it.sku := by
        intro heq
        exact hnotin (heq ▸ List.mem_map_of_mem (fun x => x.sku) hit2)
      refine ⟨q2, stk2, a2, p2, hq2, hq2pos, ?_, hstk2, havg2⟩
      rw [hσ1prod, findP_setP_ne _ _ _ _ hne]
      exact hfind2
    obtain ⟨σ2, hall, hprop, hframe⟩ := rollbackAll_ok n rest σ1 hok1 hndrest
    refine ⟨σ2, by rw [hstep]; exact hall, ?_, ?_⟩
    · intro it2 hit2 p2 stk2 a2 q2 hfind2 hstk2 havg2 hq2
      rcases List.mem_cons.mp hit2 with h | h
      · subst h
        have hp : p2 = p := by
          rw [hfind] at hfind2
          exact (Option.some.inj hfind2).symm
        have hstkeq : stk2 = stk := by
          rw [hp, hstk] at hstk2
          exact (Option.some.inj hstk2).symm
        have havgeq : a2 = a := by
          rw [hp, havg] at havg2
          exact (Option.some.inj havg2).symm
        have hqeq : q2 = q := by
          rw [hq] at hq2
          exact (Option.some.inj hq2).symm
        rw [hframe _ hnotin, hσ1prod, hstkeq, havgeq, hqeq]
        exact ⟨rollbackUpd p stk a q, findP_setP_eq _ _ _ (by rw [hfind]; rfl), rfl, rfl⟩
      · have hne : it2.sku ≠ it.sku := by
          intro heq
          exact hnotin (heq ▸ List.mem_map_of_mem (fun x => x.sku) h)
        have hfind2a : findP σ1.products it2.sku = some p2 := by
          rw [hσ1prod, findP_setP_ne _ _ _ _ hne]
          exact hfind2
        exact hprop it2 h p2 stk2 a2 q2 hfind2a hstk2 havg2 hq2
    · intro k hk
      simp only [List.map_cons, List.mem_cons, not_or] at hk
      rw [hframe k hk.2, hσ1prod, findP_setP_ne _ _ _ _ hk.1]

lemma sumN_nil : sumN [] = some 0 := rfl

lemma sumN_cons (x : NumJS) (l : List NumJS) : sumN (x :: l) = addN x (sumN l) := rfl

lemma orElseN_numJ0_some (x : NumJS) : ∃ t : ℚ, orElseN x (numJ 0) = some t := by
  cases x with
  | none => exact ⟨0, rfl⟩
  | some a =>
    by_cases h : a = 0
    · exact ⟨0, by simp [orElseN, truthyN, h, numJ]⟩
    · exact ⟨a, by simp [orElseN, truthyN, h]⟩

lemma div100N (t : ℚ) : divN (some t) (numJ 100) = some (t / 100) := by
  have : ((100:ℚ)) ≠ 0 := by norm_num
  simp [divN, numJ, this]

/-- A stock-out of a positive quantity within stock always succeeds and
persists `outUpd`. -/
lemma stockOut_ok (σ : St) (sku : String) (product : Product) (stk q : ℚ)
    (hfind : findP σ.products sku = some product)
    (hstk : product.stockOnHand = some stk)
    (hq : 0 < q) (hle : q ≤ stk) :
    stockOut σ sku (some q) =
      (.ok (outUpd product stk q),
        ⟨setP σ.products sku (outUpd product stk q),
          σ.movements ++ [mkMove "Stock Out" (outUpd product stk q) (some q) none]⟩) := by
  have h1 : (!truthyN (some q) || leN (some q) (numJ 0)) = false := by
    simp [truthyN_pos hq, leN_false_of_pos hq]
  have h2 : ltN (some stk) (some q) = false := by simp [ltN, not_lt.mpr hle]
  simp only [stockOut, h1, Bool.false_eq_true, if_false, hfind, hstk, h2, subN_some, outUpd]

/-- The createInvoice validation loop on well-formed request lines:
it succeeds, snapshots each product's prices, and its running sums are
rationals with the subtotal and cost-of-goods sums 2-decimal monetary
amounts that agree with the sums over the persisted lines. -/
lemma buildLines_ok : ∀ (items : List ReqItem) (s : Store),
    (∀ it ∈ items, reqOk s it) →
    ∃ (S T C : ℚ) (lines : List LineItem),
      buildLines s items = .ok (some S, some T, some C, lines) ∧
      isMoney S ∧ isMoney C ∧
      List.Forall₂ (fun rit line => ∃ p, findP s rit.sku = some p ∧
        line.sku = rit.sku ∧ line.quantity = rit.quantity ∧
        line.sellingPrice = p.sellingPrice ∧ line.costPrice = p.costPrice) items lines ∧
      sumN (lines.map (fun l => l.lineSubtotal)) = some S ∧
      sumN (lines.map (fun l => mulN l.quantity l.costPrice)) = some C ∧
      lines.map (fun l => l.sku) = items.map (fun it => it.sku) ∧
      (∀ l ∈ lines, ∃ q stk p, l.quantity = some q ∧ 0 < q ∧
        findP s l.sku = some p ∧ p.stockOnHand = some stk ∧ q ≤ stk)
  | [], s, _ =>
    ⟨0, 0, 0, [], rfl, isMoney_zero, isMoney_zero, List.Forall₂.nil, rfl, rfl, rfl,
      fun l hl => absurd hl (List.not_mem_nil l)⟩
  | it :: rest, s, hok => by
    obtain ⟨q, p, stk, sp, cp, hq, hqpos, hqint, hfind, hstk, hle, hsp, hspm, hcp, hcpm⟩ :=
      hok it (List.mem_cons_self it rest)
    obtain ⟨S, T, C, lines, hbl, hSm, hCm, hfa, hsumS, hsumC, hmap, hall⟩ :=
      buildLines_ok rest s (fun it2 h2 => hok it2 (List.mem_cons_of_mem it h2))
    obtain ⟨t, ht⟩ := orElseN_numJ0_some p.taxPercent
    have hltf : ltN p.stockOnHand (some q) = false := by
      rw [hstk]
      simp [ltN, not_lt.mpr hle]
    have hline : buildLines s (it :: rest) =
        .ok (some (q * sp + S), some (q * sp * (t / 100) + T), some (q * cp + C),
          { sku := it.sku, name := p.name, quantity := it.quantity,
            sellingPrice := p.sellingPrice, costPrice := p.costPrice,
            taxPercent := some t,
            taxAmount := some (round2 (q * sp * (t / 100))),
            lineSubtotal := some (round2 (q * sp)),
            lineTotal := some (round2 (q * sp + q * sp * (t / 100))) } :: lines) := by
      simp only [buildLines, hfind, hltf, Bool.false_eq_true, if_false, hq, hsp, hcp, ht,
        div100N, mulN_some, addN_some, round2N_some, hbl]
    refine ⟨q * sp + S, q * sp * (t / 100) + T, q * cp + C, _, hline,
      isMoney_add (isMoney_int_mul hqint hspm) hSm,
      isMoney_add (isMoney_int_mul hqint hcpm) hCm,
      List.Forall₂.cons ⟨p, hfind, rfl, rfl, rfl, rfl⟩ hfa, ?_, ?_, ?_, ?_⟩
    · rw [List.map_cons, sumN_cons, hsumS]
      show addN (some (round2 (q * sp))) (some S) = some (q * sp + S)
      rw [isMoney_round2 (isMoney_int_mul hqint hspm), addN_some]
    · rw [List.map_cons, sumN_cons, hsumC]
      show addN (mulN it.quantity p.costPrice) (some C) = some (q * cp + C)
      rw [hq, hcp, mulN_some, addN_some]
    · rw [List.map_cons, List.map_cons, hmap]
    · intro l hl
      rcases List.mem_cons.mp hl with h | h
      · subst h
        exact ⟨q, stk, p, hq, hqpos, hfind, hstk, hle⟩
      · exact hall l h


/-- If any requested line is invalid, the validation loop throws (and,
never writing, leaves the store untouched). -/
lemma buildLines_bad : ∀ (items : List ReqItem) (s : Store),
    (∃ it ∈ items, reqBad s it) →
    ∃ e, buildLines s items = .error e
  | [], _, h => by
    obtain ⟨it, hit, _⟩ := h
    exact absurd hit (List.not_mem_nil it)
  | it :: rest, s, h => by
    cases hfind : findP s it.sku with
    | none => exact ⟨⟨404, "Product not found"⟩, by simp [buildLines, hfind]⟩
    | some p =>
      by_cases hlt : ltN p.stockOnHand it.quantity = true
      · exact ⟨⟨400, "Insufficient stock for product"⟩, by simp [buildLines, hfind, hlt]⟩
      · obtain ⟨itb, hmem, hb⟩ := h
        rcases List.mem_cons.mp hmem with heq | hmem2
        · subst heq
          rcases hb with hnone | ⟨p2, hfind2, hlt2⟩
          · rw [hfind] at hnone
            cases hnone
          · rw [hfind] at hfind2
            rw [← Option.some.inj hfind2] at hlt2
            exact absurd hlt2 hlt
        · obtain ⟨e, herr⟩ := buildLines_bad rest s ⟨itb, hmem2, hb⟩
          exact ⟨e, by simp [buildLines, hfind, hlt, herr]⟩

/-- The deduction loop succeeds on validated lines with pairwise distinct
SKUs. -/
lemma deductAll_ok : ∀ (lines : List LineItem) (σ : St),
    (∀ l ∈ lines, ∃ q stk p, l.quantity = some q ∧ 0 < q ∧
      findP σ.products l.sku = some p ∧ p.stockOnHand = some stk ∧ q ≤ stk) →
    ((lines.map (fun l => l.sku)).Nodup) →
    ∃ σ2, deductAll σ lines = (.ok (), σ2)
  | [], σ, _, _ => ⟨σ, rfl⟩
  | l :: rest, σ, hok, hnd => by
    obtain ⟨q, stk, p, hq, hqpos, hfind, hstk, hle⟩ := hok l (List.mem_cons_self l rest)
    simp only [List.map_cons, List.nodup_cons] at hnd
    obtain ⟨hnotin, hndrest⟩ := hnd
    obtain ⟨σ1, hσ1prod, hout⟩ :
        ∃ σ1 : St, σ1.products = setP σ.products l.sku (outUpd p stk q) ∧
          stockOut σ l.sku (some q) = (.ok (outUpd p stk q), σ1) :=
      ⟨_, rfl, stockOut_ok σ l.sku p stk q hfind hstk hqpos hle⟩
    have hok1 : ∀ l2 ∈ rest, ∃ q2 stk2 p2, l2.quantity = some q2 ∧ 0 < q2 ∧
        findP σ1.products l2.sku = some p2 ∧ p2.stockOnHand = some stk2 ∧ q2 ≤ stk2 := by
      intro l2 h2
      obtain ⟨q2, stk2, p2, hq2, hq2pos, hfind2, hstk2, hle2⟩ :=
        hok l2 (List.mem_cons_of_mem l h2)
      have hne : l2.sku ≠ l.sku := by
        intro heq
        exact hnotin (heq ▸ List.mem_map_of_mem (fun x => x.sku) h2)
      refine ⟨q2, stk2, p2, hq2, hq2pos, ?_, hstk2, hle2⟩
      rw [hσ1prod, findP_setP_ne _ _ _ _ hne]
      exact hfind2
    obtain ⟨σ2, h2⟩ := deductAll_ok rest σ1 hok1 hndrest
    refine ⟨σ2, ?_⟩
    simp only [deductAll, hq, hout, h2]

/- =========================== THEOREMS =========================== -/

/-- Claim C1 (code bug witnessed at a concrete input): the persisted-value
invariant inventoryValue = round2(stockOnHand × averageCost) does NOT
survive every sequence of successful stock operations.  stockIn's
missing-cost guard is dead code (`costPerUnit == null` is checked after
the `Number(..)` coercion, and `NaN < 0` is false), so a stock-in with a
missing costPerUnit succeeds and drives averageCost to NaN; the next
stockAdjustment then stores inventoryValue 0 (via `averageCost || 0`)
while averageCost stays NaN, breaking the invariant the code itself
asserts ("Inventory value is ALWAYS stock × averageCost"). -/
theorem C1_invariant_code_bug :
    valConsistent pC1 ∧
    (stockIn σC1 "A" (some 1) none "").1 = .ok pC1mid ∧
    valConsistent pC1mid ∧
    (stockAdjustment σC1mid "A" (some 1)).1 = .ok pC1bug ∧
    ¬ valConsistent pC1bug := by
  have hs1 : noteHas "" "rollback" = false := by decide
  have hs2 : noteHas "" "cancel" = false := by decide
  have h1 : (!truthyN (some (1:ℚ)) || leN (some (1:ℚ)) (numJ 0)) = false := by
    norm_num [truthyN, leN, numJ]
  have h2 : (ltN (none : NumJS) (numJ 0) && !(noteHas "" "rollback")) = false := by
    simp [ltN_none_left]
  have hfind : findP σC1.products "A" = some pC1 := by simp [σC1, findP]
  have hin1 : (stockIn σC1 "A" (some 1) none "").1 = .ok pC1mid := by
    simp only [stockIn, h1, h2, Bool.false_eq_true, if_false, hfind, hs1, hs2, Bool.or_self,
      pC1, orElseN_some_zero, mulN_some, mulN_none_right, addN_none_right,
      divN_none_left, round2N_none, addN_some, ltN_none_left]
    norm_num [pC1mid, pC1]
  have hprods : σC1mid.products = [("A", pC1mid)] := by
    simp only [σC1mid, stockIn, h1, h2, Bool.false_eq_true, if_false, hfind, hs1, hs2,
      Bool.or_self, pC1, orElseN_some_zero, mulN_some, mulN_none_right, addN_none_right,
      divN_none_left, round2N_none, addN_some, ltN_none_left]
    norm_num [setP, σC1, pC1, pC1mid]
  have hfind2 : findP σC1mid.products "A" = some pC1mid := by
    rw [hprods]; simp [findP]
  have hd0 : ¬ ((some (1:ℚ) : NumJS) = numJ 0) := by simp [numJ]
  have hadj : (stockAdjustment σC1mid "A" (some 1)).1 = .ok pC1bug := by
    have hlt : ltN (some (2:ℚ)) (some 0) = false := by norm_num [ltN]
    simp only [stockAdjustment, if_neg hd0, hfind2, pC1mid, pC1, addN_some]
    norm_num [hlt, orElseN_none, numJ_def, mulN_some, round2N_some, pC1bug, pC1,
      round2, round_eq]
  refine ⟨?_, hin1, ?_, hadj, ?_⟩
  · norm_num [valConsistent, pC1, mulN_some, round2N_some, round2, round_eq]
  · simp [valConsistent, pC1mid, pC1, mulN_none_right, round2N_none]
  · simp [valConsistent, pC1bug, pC1, mulN_none_right, round2N_none]

/-- Claim C2: a successful stockIn of q2 units at cost c2 into q1 units at
averageCost c1 yields stockOnHand q1+q2, and averageCost
round2((q1 c1 + q2 c2)/(q1+q2)) — except when the note contains
"rollback" or "cancel" (case-insensitively), in which case averageCost
stays c1. -/
theorem C2_stockIn_wac (σ : St) (sku : String) (product : Product)
    (q1 c1 q2 c2 : ℚ) (note : String)
    (hfind : findP σ.products sku = some product)
    (hstk : product.stockOnHand = some q1)
    (havg : product.averageCost = some c1)
    (hq1 : 0 ≤ q1) (hq2 : 0 < q2) (hc2 : 0 ≤ c2) :
    ∃ p2, (stockIn σ sku (some q2) (some c2) note).1 = .ok p2 ∧
      p2.stockOnHand = some (q1 + q2) ∧
      p2.averageCost = some (if (noteHas note "rollback" || noteHas note "cancel")
        then c1 else round2 ((q1 * c1 + q2 * c2) / (q1 + q2))) := by
  have hsum : q1 + q2 ≠ 0 := by positivity
  have h1 : (!truthyN (some q2) || leN (some q2) (numJ 0)) = false := by
    simp [truthyN_pos hq2, leN_false_of_pos hq2]
  have h2 : (ltN (some c2) (numJ 0) && !(noteHas note "rollback")) = false := by
    simp [ltN_false_of_nonneg hc2]
  simp only [stockIn, h1, h2, Bool.false_eq_true, if_false, hfind, hstk, havg,
    orElseN_some_zero, addN, mulN, divN, hsum, round2N]
  refine ⟨_, rfl, rfl, ?_⟩
  split <;> rfl

/-- Witness for C2 at the spec's own numbers: stock-in of 5 @ 20 into
10 @ 10 with an empty note. -/
theorem C2_stockIn_wac_witness :
    ∃ p2, (stockIn σW "W" (some 5) (some 20) "").1 = .ok p2 ∧
      p2.stockOnHand = some (10 + 5) ∧
      p2.averageCost = some (if (noteHas "" "rollback" || noteHas "" "cancel")
        then 10 else round2 ((10 * 10 + 5 * 20) / (10 + 5))) :=
  C2_stockIn_wac σW "W" pW 10 10 5 20 "" (by decide) (by decide) (by decide)
    (by norm_num) (by norm_num) (by norm_num)

/-- Claim C5: stockOut with quantity exceeding stockOnHand fails with the
insufficient-stock error and writes nothing; a successful stockOut
decreases stockOnHand by exactly the quantity and leaves averageCost
unchanged. -/
theorem C5_stockOut (σ : St) (sku : String) (product : Product) (stk q : ℚ)
    (hfind : findP σ.products sku = some product)
    (hstk : product.stockOnHand = some stk)
    (hq : 0 < q) :
    (stk < q →
      (stockOut σ sku (some q)).1 =
        .error ⟨400, "Stock out failed: Only stockOnHand units available"⟩ ∧
      (stockOut σ sku (some q)).2 = σ) ∧
    (q ≤ stk →
      ∃ p2, (stockOut σ sku (some q)).1 = .ok p2 ∧
        p2.stockOnHand = some (stk - q) ∧
        p2.averageCost = product.averageCost ∧
        (stockOut σ sku (some q)).2.products = setP σ.products sku p2) := by
  have h1 : (!truthyN (some q) || leN (some q) (numJ 0)) = false := by
    simp [truthyN_pos hq, leN_false_of_pos hq]
  constructor
  · intro hlt
    have h2 : ltN (some stk) (some q) = true := by simp [ltN, hlt]
    refine ⟨?_, ?_⟩ <;>
      simp only [stockOut, h1, Bool.false_eq_true, if_false, hfind, hstk, h2, if_true]
  · intro hle
    have h2 : ltN (some stk) (some q) = false := by simp [ltN, not_lt.mpr hle]
    simp only [stockOut, h1, h2, Bool.false_eq_true, if_false, hfind, hstk, subN]
    exact ⟨_, rfl, rfl, rfl, rfl⟩

/-- Witness for C5: taking 4 of the 10 units of `pW`. -/
theorem C5_stockOut_witness :
    ∃ p2, (stockOut σW "W" (some 4)).1 = .ok p2 ∧
      p2.stockOnHand = some (10 - 4) ∧
      p2.averageCost = pW.averageCost ∧
      (stockOut σW "W" (some 4)).2.products = setP σW.products "W" p2 :=
  (C5_stockOut σW "W" pW 10 4 (by decide) (by decide) (by norm_num)).2 (by norm_num)

/-- Claim C6 as stated is false on the code; this theorem exhibits both
divergences at concrete inputs.  First: a negative costPerUnit with a
note containing "cancel" (but not "rollback") IS rejected — the
validation exemption tests only the substring "rollback" (the
"rollback or cancel" pair is tested only in the later averageCost
branch).  Second: a MISSING costPerUnit is NOT rejected — it coerces to
NaN, which passes the dead `== null` / `< 0` guard, and the stock-in
succeeds (persisting a NaN averageCost). -/
theorem C6_counterexample :
    (stockIn σW "W" (some 5) (some (-1)) "Cancel INV-1").1 =
      .error ⟨400, "Cost per unit is required and cannot be negative"⟩ ∧
    (stockIn σW "W" (some 5) none "").1 = .ok pWnan := by
  have hs1 : noteHas "Cancel INV-1" "rollback" = false := by decide
  have hq5 : (!truthyN (some (5:ℚ)) || leN (some (5:ℚ)) (numJ 0)) = false := by
    norm_num [truthyN, leN, numJ]
  constructor
  · have h2 : (ltN (some (-1:ℚ)) (numJ 0) && !(noteHas "Cancel INV-1" "rollback")) = true := by
      norm_num [ltN, numJ, hs1]
    simp only [stockIn, hq5, Bool.false_eq_true, if_false, h2, if_true]
  · have hs2 : noteHas "" "rollback" = false := by decide
    have hs3 : noteHas "" "cancel" = false := by decide
    have h2 : (ltN (none : NumJS) (numJ 0) && !(noteHas "" "rollback")) = false := by
      simp [ltN_none_left]
    have hfind : findP σW.products "W" = some pW := by simp [σW, findP]
    simp only [stockIn, hq5, Bool.false_eq_true, if_false, h2, hfind, hs2, hs3, Bool.or_self,
      pW, orElseN_some_zero, mulN_some, mulN_none_right, addN_none_right,
      divN_none_left, round2N_none, addN_some, ltN_none_left]
    norm_num [pWnan, pW]

/-- Claim C6 (amended): stockIn fails with a 400 Validation error — and
writes neither a product update nor a movement record — whenever the
coerced quantity is not a positive number, or the coerced costPerUnit is
a negative number and the note does not contain "rollback"
(case-insensitively).  A note containing only "cancel" does not exempt
the negative-cost check, and a missing costPerUnit is not rejected at
all (it coerces to NaN). -/
theorem C6_stockIn_validation (σ : St) (sku : String)
    (quantity costPerUnit : NumJS) (note : String)
    (hbad : (quantity = none ∨ ∃ q : ℚ, quantity = some q ∧ q ≤ 0) ∨
            (∃ c : ℚ, costPerUnit = some c ∧ c < 0 ∧ noteHas note "rollback" = false)) :
    ∃ e, (stockIn σ sku quantity costPerUnit note).1 = .error e ∧ e.statusCode = 400 ∧
      (stockIn σ sku quantity costPerUnit note).2 = σ := by
  rcases hbad with hq | ⟨c, hc, hcneg, hnr⟩
  · have h1 : (!truthyN quantity || leN quantity (numJ 0)) = true := by
      rcases hq with h | ⟨q, hq, hq0⟩
      · subst h; simp [truthyN]
      · subst hq
        by_cases h0 : q = 0
        · simp [truthyN, h0]
        · simp [leN, numJ, hq0]
    refine ⟨⟨400, "Quantity must be greater than zero"⟩, ?_, rfl, ?_⟩ <;>
      simp only [stockIn, h1, if_true]
  · subst hc
    by_cases h1 : (!truthyN quantity || leN quantity (numJ 0)) = true
    · refine ⟨⟨400, "Quantity must be greater than zero"⟩, ?_, rfl, ?_⟩ <;>
        simp only [stockIn, h1, if_true]
    · have h1f : (!truthyN quantity || leN quantity (numJ 0)) = false := by
        simp only [Bool.not_eq_true] at h1
        exact h1
      have h2 : (ltN (some c) (numJ 0) && !(noteHas note "rollback")) = true := by
        simp [ltN, numJ, hcneg, hnr]
      refine ⟨⟨400, "Cost per unit is required and cannot be negative"⟩, ?_, rfl, ?_⟩ <;>
        simp only [stockIn, h1f, Bool.false_eq_true, if_false, h2, if_true]

/-- Witness for the amended C6: a zero quantity is rejected and the state
is untouched. -/
theorem C6_stockIn_validation_witness :
    ∃ e, (stockIn σW "W" (some 0) (some 20) "").1 = .error e ∧ e.statusCode = 400 ∧
      (stockIn σW "W" (some 0) (some 20) "").2 = σW :=
  C6_stockIn_validation σW "W" (some 0) (some 20) ""
    (Or.inl (Or.inr ⟨0, rfl, le_refl 0⟩))

/-- Claim C8: stockAdjustment with stockOnHand + delta < 0 fails and
writes nothing; a successful adjustment adds exactly delta to
stockOnHand, keeps averageCost, and recomputes inventoryValue at the
existing averageCost. -/
theorem C8_stockAdjustment (σ : St) (sku : String) (product : Product) (stk a d : ℚ)
    (hfind : findP σ.products sku = some product)
    (hstk : product.stockOnHand = some stk)
    (havg : product.averageCost = some a) :
    (stk + d < 0 →
      ∃ e, (stockAdjustment σ sku (some d)).1 = .error e ∧
        (stockAdjustment σ sku (some d)).2 = σ) ∧
    (0 ≤ stk + d → d ≠ 0 →
      ∃ p2, (stockAdjustment σ sku (some d)).1 = .ok p2 ∧
        p2.stockOnHand = some (stk + d) ∧
        p2.averageCost = some a ∧
        p2.inventoryValue = some (round2 ((stk + d) * a)) ∧
        (stockAdjustment σ sku (some d)).2.products = setP σ.products sku p2) := by
  constructor
  · intro hneg
    by_cases hd : (some d : NumJS) = numJ 0
    · refine ⟨⟨400, "Adjustment quantity must be non-zero"⟩, ?_, ?_⟩ <;>
        simp only [stockAdjustment, hd, if_true]
    · have h2 : ltN (addN (some stk) (some d)) (numJ 0) = true := by
        simp [addN, ltN, numJ, hneg]
      refine ⟨⟨400, "Adjustment would make stock negative"⟩, ?_, ?_⟩ <;>
        simp only [stockAdjustment, if_neg hd, hfind, hstk, h2, if_true]
  · intro hge hd
    have hd0 : ¬ ((some d : NumJS) = numJ 0) := by simp [numJ, hd]
    have h2 : ltN (some (stk + d)) (numJ 0) = false := by
      simp [ltN, numJ, not_lt.mpr hge]
    simp only [stockAdjustment, if_neg hd0, hfind, h2, Bool.false_eq_true, if_false, hstk,
      addN, havg, orElseN_some_zero, mulN, round2N]
    exact ⟨_, rfl, rfl, rfl, rfl, rfl⟩

/-- Witness for C8: adjusting `pW` by -3. -/
theorem C8_stockAdjustment_witness :
    ∃ p2, (stockAdjustment σW "W" (some (-3))).1 = .ok p2 ∧
      p2.stockOnHand = some (10 + -3) ∧
      p2.averageCost = some 10 ∧
      p2.inventoryValue = some (round2 ((10 + -3) * 10)) ∧
      (stockAdjustment σW "W" (some (-3))).2.products = setP σW.products "W" p2 :=
  (C8_stockAdjustment σW "W" pW 10 10 (-3) (by decide) (by decide) (by decide)).2
    (by norm_num) (by norm_num)

/-- Evaluation of the spec scenario stock-in on the code: shared by the
two C9 statements below. -/
lemma C9_eval_aux :
    (stockIn σC9 "SKU1" (some 5) (some 20) "").1 = .ok pC9after := by
  have hs1 : noteHas "" "rollback" = false := by decide
  have hs2 : noteHas "" "cancel" = false := by decide
  have h1 : (!truthyN (some (5:ℚ)) || leN (some (5:ℚ)) (numJ 0)) = false := by
    norm_num [truthyN, leN, numJ]
  have h2 : ltN (some (20:ℚ)) (numJ 0) = false := by
    norm_num [ltN, numJ]
  have hfind : findP σC9.products "SKU1" = some pC9 := by simp [σC9, findP]
  have hsum : ((10:ℚ) + 5) ≠ 0 := by norm_num
  simp only [stockIn, h1, h2, Bool.false_eq_true, Bool.false_and, if_false, hfind, hs1, hs2,
    Bool.or_self, pC9, orElseN_some_zero, mulN_some, addN_some, divN_some, round2N_some,
    hsum, if_false, pC9after]
  norm_num [round2, round_eq]

/-- Claim C9 as stated is false on the code: from 10 units @ averageCost
10, stockIn(qty 5, cost 20) persists averageCost 13.33 and stockOnHand
15 as claimed, but inventoryValue 199.95 = round2(15 × 13.33), not the
claimed 200.00 — the value is recomputed from the *rounded* average, so
it is not on a rounding-independent path. -/
theorem C9_counterexample :
    (stockIn σC9 "SKU1" (some 5) (some 20) "").1 = .ok pC9after ∧
    pC9after.inventoryValue = some (19995/100) ∧
    ((19995 : ℚ)/100) ≠ 200 := by
  refine ⟨C9_eval_aux, by norm_num [pC9after, pC9], by norm_num⟩

/-- Claim C9 (amended): the scenario yields averageCost 13.33 and
stockOnHand 15, and inventoryValue 199.95 (recomputed from the rounded
average cost). -/
theorem C9_scenario :
    (stockIn σC9 "SKU1" (some 5) (some 20) "").1 = .ok pC9after :=
  C9_eval_aux

/-- Claim C4: recordPayment fails with 404 NotFound on a missing invoice,
with 400 Validation on a Cancelled invoice, on amountReceived ≤ 0, and on
amountReceived > outstandingAmount (overpayment rejected, never clamped);
on success the outstanding amount decreases by exactly the amount
received, and exactly when it reaches zero the status flips to Paid and
paidOn is stamped. -/
theorem C4_recordPayment (inv : Invoice) (a ω : ℚ) (now : String)
    (hout : inv.outstandingAmount = some ω) :
    (recordPayment none (some a) now = .error ⟨404, "Invoice not found"⟩) ∧
    (inv.status = "Cancelled" →
      recordPayment (some inv) (some a) now =
        .error ⟨400, "Cannot record payment for a cancelled invoice."⟩) ∧
    (inv.status ≠ "Cancelled" → a ≤ 0 →
      recordPayment (some inv) (some a) now = .error ⟨400, "Invalid payment amount"⟩) ∧
    (inv.status ≠ "Cancelled" → 0 < a → ω < a →
      recordPayment (some inv) (some a) now = .error ⟨400, "Overpayment not allowed"⟩) ∧
    (inv.status ≠ "Cancelled" → 0 < a → a ≤ ω → isMoney a → isMoney ω →
      ∃ inv2, recordPayment (some inv) (some a) now = .ok inv2 ∧
        inv2.outstandingAmount = some (ω - a) ∧
        (ω - a = 0 → inv2.status = "Paid" ∧ inv2.paidOn = some now) ∧
        (ω - a ≠ 0 → inv2.status = inv.status ∧ inv2.paidOn = inv.paidOn)) := by
  refine ⟨rfl, ?_, ?_, ?_, ?_⟩
  · intro hc
    simp [recordPayment, hc]
  · intro hc ha
    have h2 : leN (some a) (numJ 0) = true := by simp [leN, numJ, ha]
    simp [recordPayment, if_neg hc, h2]
  · intro hc ha hov
    have h2 : leN (some a) (numJ 0) = false := by simp [leN, numJ, not_le.mpr ha]
    have h3 : gtN (some a) inv.outstandingAmount = true := by
      simp [gtN, hout, ltN, hov]
    simp [recordPayment, if_neg hc, h2, h3]
  · intro hc ha hle hma hmo
    have h2 : leN (some a) (numJ 0) = false := by simp [leN, numJ, not_le.mpr ha]
    have h3 : gtN (some a) inv.outstandingAmount = false := by
      simp [gtN, hout, ltN, not_lt.mpr hle]
    have hsub : round2N (subN inv.outstandingAmount (some a)) = some (ω - a) := by
      rw [hout, subN_some, round2N_some, isMoney_round2 (isMoney_sub hmo hma)]
    simp only [recordPayment, if_neg hc, h2, h3, Bool.false_eq_true, if_false, hsub]
    by_cases h0 : ω - a = 0
    · rw [if_pos (by rw [h0]; rfl : (some (ω - a) : NumJS) = numJ 0)]
      exact ⟨_, rfl, rfl, fun _ => ⟨rfl, rfl⟩, fun hne => absurd h0 hne⟩
    · rw [if_neg (by simp [numJ, h0] : ¬ ((some (ω - a) : NumJS) = numJ 0))]
      exact ⟨_, rfl, rfl, fun h => absurd h h0, fun _ => ⟨rfl, rfl⟩⟩

/-- Witness for C4: paying 600 against the 1000 outstanding of `invW`. -/
theorem C4_recordPayment_witness :
    ∃ inv2, recordPayment (some invW) (some 600) "now" = .ok inv2 ∧
      inv2.outstandingAmount = some (1000 - 600) ∧
      ((1000 : ℚ) - 600 = 0 → inv2.status = "Paid" ∧ inv2.paidOn = some "now") ∧
      ((1000 : ℚ) - 600 ≠ 0 → inv2.status = invW.status ∧ inv2.paidOn = invW.paidOn) :=
  (C4_recordPayment invW 600 1000 "now" rfl).2.2.2.2 (by decide) (by norm_num)
    (by norm_num) ⟨60000, by norm_num⟩ ⟨100000, by norm_num⟩

/-- Claim C10: a successful recordPayment changes only outstandingAmount,
status and paidOn; invoiceNumber, companyId, customerName, items,
subtotal, totalTax, totalAmount, grossProfit, date and dueDate are
persisted unchanged. -/
theorem C10_recordPayment_frame (stored : Option Invoice) (inv inv2 : Invoice)
    (amt : NumJS) (now : String)
    (hstored : stored = some inv)
    (hok : recordPayment stored amt now = .ok inv2) :
    inv2.invoiceNumber = inv.invoiceNumber ∧ inv2.companyId = inv.companyId ∧
    inv2.customerName = inv.customerName ∧ inv2.items = inv.items ∧
    inv2.subtotal = inv.subtotal ∧ inv2.totalTax = inv.totalTax ∧
    inv2.totalAmount = inv.totalAmount ∧ inv2.grossProfit = inv.grossProfit ∧
    inv2.date = inv.date ∧ inv2.dueDate = inv.dueDate := by
  subst hstored
  simp only [recordPayment] at hok
  by_cases h1 : inv.status = "Cancelled"
  · rw [if_pos h1] at hok; exact absurd hok (by simp)
  rw [if_neg h1] at hok
  by_cases h2 : leN amt (numJ 0) = true
  · rw [if_pos h2] at hok; exact absurd hok (by simp)
  rw [if_neg h2] at hok
  by_cases h3 : gtN amt inv.outstandingAmount = true
  · rw [if_pos h3] at hok; exact absurd hok (by simp)
  rw [if_neg h3] at hok
  by_cases h4 : round2N (subN inv.outstandingAmount amt) = numJ 0
  · rw [if_pos h4] at hok
    have h := Except.ok.inj hok
    subst h
    exact ⟨rfl, rfl, rfl, rfl, rfl, rfl, rfl, rfl, rfl, rfl⟩
  · rw [if_neg h4] at hok
    have h := Except.ok.inj hok
    subst h
    exact ⟨rfl, rfl, rfl, rfl, rfl, rfl, rfl, rfl, rfl, rfl⟩

/-- Evaluation of a concrete successful payment, feeding the C10 witness. -/
lemma C10_eval_aux : recordPayment (some invW) (some 600) "now" = .ok invW600 := by
  have h2 : leN (some (600:ℚ)) (numJ 0) = false := by norm_num [leN, numJ]
  have h3 : gtN (some (600:ℚ)) (some (1000:ℚ)) = false := by norm_num [gtN, ltN]
  simp only [recordPayment, invW]
  rw [if_neg (by decide : ¬ ("Unpaid" = "Cancelled"))]
  simp only [h2, h3, Bool.false_eq_true, if_false, subN_some, round2N_some]
  norm_num [numJ, round2, round_eq, invW600, invW]

/-- Witness for C10 on the concrete payment of `C10_eval_aux`. -/
theorem C10_recordPayment_frame_witness :
    invW600.invoiceNumber = invW.invoiceNumber ∧ invW600.companyId = invW.companyId ∧
    invW600.customerName = invW.customerName ∧ invW600.items = invW.items ∧
    invW600.subtotal = invW.subtotal ∧ invW600.totalTax = invW.totalTax ∧
    invW600.totalAmount = invW.totalAmount ∧ invW600.grossProfit = invW.grossProfit ∧
    invW600.date = invW.date ∧ invW600.dueDate = invW.dueDate :=
  C10_recordPayment_frame (some invW) invW invW600 (some 600) "now" rfl C10_eval_aux

/-- Claim C3: cancelInvoice on an invoice already Cancelled fails with
the 400 Validation error (and rewrites nothing); on a non-Cancelled
invoice whose lines are well-formed with pairwise distinct SKUs it
succeeds, restores each line's quantity to its product's stockOnHand
without altering that product's averageCost, and zeroes subtotal,
totalTax, totalAmount, outstandingAmount and grossProfit while setting
status to Cancelled. -/
theorem C3_cancelInvoice (inv : Invoice) (σ : St) (now : String) :
    (inv.status = "Cancelled" →
      cancelInvoice (some inv) σ now = .error ⟨400, "Invoice is already cancelled."⟩) ∧
    (inv.status ≠ "Cancelled" →
      (∀ it ∈ inv.items, itemOk σ.products it) →
      ((inv.items.map (fun it => it.sku)).Nodup) →
      ∃ inv2 σ2, cancelInvoice (some inv) σ now = .ok (inv2, σ2) ∧
        inv2.status = "Cancelled" ∧ inv2.subtotal = some 0 ∧ inv2.totalTax = some 0 ∧
        inv2.totalAmount = some 0 ∧ inv2.outstandingAmount = some 0 ∧
        inv2.grossProfit = some 0 ∧
        (∀ it ∈ inv.items, ∀ p stk a q, findP σ.products it.sku = some p →
          p.stockOnHand = some stk → p.averageCost = some a → it.quantity = some q →
          ∃ p2, findP σ2.products it.sku = some p2 ∧
            p2.stockOnHand = some (stk + q) ∧ p2.averageCost = some a)) := by
  constructor
  · intro hc
    simp [cancelInvoice, hc]
  · intro hc hok hnd
    obtain ⟨σ2, hall, hprop, _⟩ := rollbackAll_ok inv.invoiceNumber inv.items σ hok hnd
    refine ⟨{ inv with
        status := "Cancelled", subtotal := numJ 0, totalTax := numJ 0,
        totalAmount := numJ 0, outstandingAmount := numJ 0, grossProfit := numJ 0,
        cancelledAt := some now }, σ2, ?_, rfl, rfl, rfl, rfl, rfl, rfl, hprop⟩
    simp only [cancelInvoice, if_neg hc, hall]

/-- Witness for C3: cancelling the one-line invoice `invC3` over `σW`. -/
theorem C3_cancelInvoice_witness :
    ∃ inv2 σ2, cancelInvoice (some invC3) σW "t" = .ok (inv2, σ2) ∧
      inv2.status = "Cancelled" ∧ inv2.subtotal = some 0 ∧ inv2.totalTax = some 0 ∧
      inv2.totalAmount = some 0 ∧ inv2.outstandingAmount = some 0 ∧
      inv2.grossProfit = some 0 ∧
      (∀ it ∈ invC3.items, ∀ p stk a q, findP σW.products it.sku = some p →
        p.stockOnHand = some stk → p.averageCost = some a → it.quantity = some q →
        ∃ p2, findP σ2.products it.sku = some p2 ∧
          p2.stockOnHand = some (stk + q) ∧ p2.averageCost = some a) :=
  (C3_cancelInvoice invC3 σW "t").2 (by decide)
    (by
      intro it hit
      rw [show invC3.items = [lineW] from rfl, List.mem_singleton] at hit
      subst hit
      exact ⟨5, 10, 10, pW, rfl, by norm_num, by rfl, rfl, rfl⟩)
    (by decide)

/-- Claim C7: createInvoice writes no stock when any requested line fails
validation against stockOnHand (stock is deducted only after every line
validates); on success each line snapshots the product's current
sellingPrice and costPrice, totalAmount equals subtotal plus totalTax,
grossProfit equals the sum of line subtotals minus the sum of
quantity × costPrice, and outstandingAmount is initialized to totalAmount
unless the requested status is Paid, in which case it is 0 and paidOn is
stamped. -/
theorem C7_createInvoice (σ : St) (companyId : String) (data : InvoiceReq)
    (invId now : String) :
    ((∃ it ∈ data.items, reqBad σ.products it) →
      ∃ e, (createInvoice σ companyId data invId now).1 = .error e ∧
        (createInvoice σ companyId data invId now).2 = σ) ∧
    ((∀ it ∈ data.items, reqOk σ.products it) →
      ((data.items.map (fun it => it.sku)).Nodup) →
      ∃ inv, (createInvoice σ companyId data invId now).1 = .ok inv ∧
        List.Forall₂ (fun rit line => ∃ p, findP σ.products rit.sku = some p ∧
          line.sku = rit.sku ∧ line.quantity = rit.quantity ∧
          line.sellingPrice = p.sellingPrice ∧ line.costPrice = p.costPrice)
          data.items inv.items ∧
        inv.totalAmount = addN inv.subtotal inv.totalTax ∧
        inv.grossProfit = subN (sumN (inv.items.map (fun l => l.lineSubtotal)))
          (sumN (inv.items.map (fun l => mulN l.quantity l.costPrice))) ∧
        (data.status = "Paid" → inv.outstandingAmount = numJ 0 ∧ inv.paidOn = some now) ∧
        (data.status ≠ "Paid" → inv.outstandingAmount = inv.totalAmount ∧
          inv.paidOn = none)) := by
  constructor
  · intro hbad
    obtain ⟨e, herr⟩ := buildLines_bad data.items σ.products hbad
    exact ⟨e, by simp [createInvoice, herr], by simp [createInvoice, herr]⟩
  · intro hok hnd
    obtain ⟨S, T, C, lines, hbl, hSm, hCm, hfa, hsumS, hsumC, hmap, hall⟩ :=
      buildLines_ok data.items σ.products hok
    obtain ⟨σ2, hdd⟩ := deductAll_ok lines σ hall (by rw [hmap]; exact hnd)
    have hcre : (createInvoice σ companyId data invId now).1 = .ok
        { companyId := companyId, invoiceNumber := invId,
          customerName := data.customerName, gst := data.gst, date := now,
          dueDate := if data.status = "Paid" then none else data.dueDate,
          paidOn := if data.status = "Paid" then some now else none,
          items := lines, subtotal := round2N (some S), totalTax := round2N (some T),
          totalAmount := round2N (addN (some S) (some T)),
          outstandingAmount := if data.status = "Paid" then numJ 0
            else round2N (addN (some S) (some T)),
          grossProfit := round2N (subN (some S) (some C)),
          status := if data.status = "Paid" then "Paid" else "Unpaid",
          cancelledAt := none } := by
      simp only [createInvoice, hbl, hdd]
    refine ⟨_, hcre, hfa, ?_, ?_, ?_, ?_⟩
    · show round2N (addN (some S) (some T)) = addN (round2N (some S)) (round2N (some T))
      rw [addN_some, round2N_some, round2N_some, round2N_some, addN_some,
        isMoney_round2 hSm, round2_money_add hSm]
    · show round2N (subN (some S) (some C)) =
        subN (sumN (lines.map (fun l => l.lineSubtotal)))
          (sumN (lines.map (fun l => mulN l.quantity l.costPrice)))
      rw [hsumS, hsumC, subN_some, round2N_some,
        isMoney_round2 (isMoney_sub hSm hCm)]
    · intro h
      exact ⟨by simp [h], by simp [h]⟩
    · intro h
      exact ⟨by simp [h], by simp [h]⟩

/-- Witness for C7: a two-unit invoice over `σW`. -/
theorem C7_createInvoice_witness :
    ∃ inv, (createInvoice σW "c1" dataW "INV-9" "t").1 = .ok inv ∧
      List.Forall₂ (fun rit line => ∃ p, findP σW.products rit.sku = some p ∧
        line.sku = rit.sku ∧ line.quantity = rit.quantity ∧
        line.sellingPrice = p.sellingPrice ∧ line.costPrice = p.costPrice)
        dataW.items inv.items ∧
      inv.totalAmount = addN inv.subtotal inv.totalTax ∧
      inv.grossProfit = subN (sumN (inv.items.map (fun l => l.lineSubtotal)))
        (sumN (inv.items.map (fun l => mulN l.quantity l.costPrice))) ∧
      (dataW.status = "Paid" → inv.outstandingAmount = numJ 0 ∧ inv.paidOn = some "t") ∧
      (dataW.status ≠ "Paid" → inv.outstandingAmount = inv.totalAmount ∧
        inv.paidOn = none) :=
  (C7_createInvoice σW "c1" dataW "INV-9" "t").2
    (by
      intro it hit
      rw [show dataW.items = [reqW] from rfl, List.mem_singleton] at hit
      subst hit
      exact ⟨2, pW, 10, 25, 10, rfl, by norm_num, ⟨2, by norm_num⟩, rfl, rfl,
        by norm_num, rfl, ⟨2500, by norm_num⟩, rfl, ⟨1000, by norm_num⟩⟩)
    (by decide)
